import Mathlib

set_option linter.unusedVariables false

/-!
Verification of the round-based federated learning core ("flower").

The repository slice at hand contains the quickstart simulation notebook
(`examples/quickstart_simulation/sim.ipynb`), a CI workflow and a
documentation theme; the orchestration/aggregation engine itself
(Strategy, RoundOrchestrator, ParticipantFactory, ParticipantProxy,
ParticipantRegistry) is not part of the slice.  Definitions for those
components are therefore modelled from the specification (marked
`Modelled from the spec:`); the notebook's `FlowerClient` and `client_fn`
are embedded directly from the notebook source.

Model parameters are embedded as lists of rationals (exact arithmetic in
place of the floating point tensors, which the spec treats as opaque
numeric data).
-/

namespace Flower

/-- A tensor of a model: one weight array, embedded as a list of exact
rational values. -/
abbrev Tensor : Type := List ℚ

/-- ParameterSet: ordered sequence of tensors representing model weights. -/
abbrev ParameterSet : Type := List Tensor

/-- Modelled from the spec: the payload of a successful fit TaskResult —
the updated parameters together with the reported sample count used as the
aggregation weight.  (The metrics mapping is opaque to aggregation and
omitted.) -/
structure FitSuccess where
  sampleCount : ℕ
  parameters : ParameterSet
deriving DecidableEq

/-- Scale every entry of a tensor by a weight. -/
def scaleTensor (w : ℚ) (t : Tensor) : Tensor :=
  t.map fun x => w * x

/-- Pointwise sum of two tensors. -/
def addTensor (t₁ t₂ : Tensor) : Tensor :=
  List.zipWith (· + ·) t₁ t₂

/-- Scale every tensor of a parameter set. -/
def scaleParams (w : ℚ) (p : ParameterSet) : ParameterSet :=
  p.map (scaleTensor w)

/-- Pointwise sum of two parameter sets. -/
def addParams (p q : ParameterSet) : ParameterSet :=
  List.zipWith addTensor p q

/-- Divide every entry of a parameter set by a (total weight) scalar. -/
def divParams (total : ℚ) (p : ParameterSet) : ParameterSet :=
  p.map fun t => t.map fun x => x / total

/-- Sum a non-empty family of parameter sets pointwise (the reduction step
of the aggregation); the empty family yields the empty parameter set. -/
def sumParams : List ParameterSet → ParameterSet
  | [] => []
  | p :: ps => ps.foldl addParams p

/-- Total weight: the sum of the reported sample counts of the successful
results. -/
def totalWeight (results : List FitSuccess) : ℚ :=
  (results.map fun r => (r.sampleCount : ℚ)).sum

/-- Modelled from the spec: the default `Strategy.aggregate_fit` —
sample-count-weighted averaging.  Each successful result's parameters are
scaled by its sample count, the scaled parameter sets are summed
pointwise, and every entry of the sum is divided by the total weight. -/
def aggregate_fit (results : List FitSuccess) : ParameterSet :=
  divParams (totalWeight results)
    (sumParams (results.map fun r => scaleParams (r.sampleCount : ℚ) r.parameters))

/-- Entry of a tensor at position `j` (0 outside the tensor). -/
def tget (t : Tensor) (j : ℕ) : ℚ :=
  t.getD j 0

/-- Entry of a parameter set at tensor `i`, position `j` (0 outside). -/
def pget (p : ParameterSet) (i j : ℕ) : ℚ :=
  (p.getD i []).getD j 0

/-- The shape of a parameter set: the list of its tensor lengths. -/
def pshape (p : ParameterSet) : List ℕ :=
  p.map List.length

lemma getD_map_eq {α β : Type} (f : α → β) (d : α) (l : List α) (i : ℕ) :
    (l.map f).getD i (f d) = f (l.getD i d) := by
  induction l generalizing i with
  | nil => simp
  | cons x xs ih =>
    cases i with
    | zero => simp
    | succ n => exact ih n

lemma tlength_of_pshape {p : ParameterSet} {sh : List ℕ} (h : pshape p = sh) (i : ℕ) :
    (p.getD i []).length = sh.getD i 0 := by
  have hm := getD_map_eq List.length ([] : Tensor) p i
  simp only [List.length_nil] at hm
  rw [← h, pshape, hm]

lemma length_of_pshape {p : ParameterSet} {sh : List ℕ} (h : pshape p = sh) :
    p.length = sh.length := by
  have := congrArg List.length h
  simpa [pshape] using this

lemma pget_scaleParams (w : ℚ) (p : ParameterSet) (i j : ℕ) :
    pget (scaleParams w p) i j = w * pget p i j := by
  unfold pget scaleParams
  have h1 : (p.map (scaleTensor w)).getD i (scaleTensor w []) = scaleTensor w (p.getD i []) :=
    getD_map_eq (scaleTensor w) [] p i
  have h2 : scaleTensor w [] = ([] : Tensor) := rfl
  rw [h2] at h1
  rw [h1]
  unfold scaleTensor
  have h3 : ((p.getD i []).map (fun x => w * x)).getD j (w * 0) = w * (p.getD i []).getD j 0 :=
    getD_map_eq (fun x => w * x) 0 (p.getD i []) j
  rw [mul_zero] at h3
  exact h3

lemma pget_divParams (total : ℚ) (p : ParameterSet) (i j : ℕ) :
    pget (divParams total p) i j = pget p i j / total := by
  unfold pget divParams
  have h1 : (p.map (fun t => t.map fun x => x / total)).getD i ([].map fun x => x / total)
      = (p.getD i []).map fun x => x / total :=
    getD_map_eq (fun t => t.map fun x => x / total) [] p i
  simp only [List.map_nil] at h1
  rw [h1]
  have h2 : ((p.getD i []).map (fun x => x / total)).getD j (0 / total)
      = (p.getD i []).getD j 0 / total :=
    getD_map_eq (fun x => x / total) 0 (p.getD i []) j
  rw [zero_div] at h2
  exact h2

lemma length_addTensor (t₁ t₂ : Tensor) :
    (addTensor t₁ t₂).length = min t₁.length t₂.length := by
  simp [addTensor]

lemma tget_addTensor (t₁ t₂ : Tensor) (j : ℕ) (h₁ : j < t₁.length) (h₂ : j < t₂.length) :
    tget (addTensor t₁ t₂) j = tget t₁ j + tget t₂ j := by
  have hz : j < (addTensor t₁ t₂).length := by
    rw [length_addTensor]; omega
  unfold tget
  rw [List.getD_eq_getElem _ _ hz, List.getD_eq_getElem _ _ h₁, List.getD_eq_getElem _ _ h₂]
  exact List.getElem_zipWith

lemma pget_addParams (p q : ParameterSet) (i j : ℕ)
    (hip : i < p.length) (hiq : i < q.length)
    (hjp : j < (p.getD i []).length) (hjq : j < (q.getD i []).length) :
    pget (addParams p q) i j = pget p i j + pget q i j := by
  have hiz : i < (List.zipWith addTensor p q).length := by
    rw [List.length_zipWith]; omega
  unfold pget addParams
  rw [List.getD_eq_getElem _ _ hiz, List.getElem_zipWith]
  rw [List.getD_eq_getElem _ _ hip] at hjp ⊢
  rw [List.getD_eq_getElem _ _ hiq] at hjq ⊢
  exact tget_addTensor _ _ _ hjp hjq

lemma pshape_scaleParams (w : ℚ) (p : ParameterSet) :
    pshape (scaleParams w p) = pshape p := by
  simp [pshape, scaleParams, scaleTensor, List.map_map, Function.comp]

lemma pshape_addParams {p q : ParameterSet} (h : pshape p = pshape q) :
    pshape (addParams p q) = pshape p := by
  induction p generalizing q with
  | nil => simp [addParams, pshape]
  | cons t ts ih =>
    cases q with
    | nil => simp [pshape] at h
    | cons u us =>
      simp only [pshape, List.map_cons, List.cons.injEq] at h
      simp only [addParams, List.zipWith_cons_cons, pshape, List.map_cons, List.cons.injEq]
      constructor
      · rw [length_addTensor, h.1, min_self]
      · have := ih (q := us) (by simpa [pshape] using h.2)
        simpa [addParams, pshape] using this

lemma pget_foldl_addParams (ps : List ParameterSet) (p₀ : ParameterSet) (sh : List ℕ)
    (h₀ : pshape p₀ = sh) (hps : ∀ p ∈ ps, pshape p = sh) (i j : ℕ)
    (hi : i < sh.length) (hj : j < sh.getD i 0) :
    pget (ps.foldl addParams p₀) i j = pget p₀ i j + (ps.map fun p => pget p i j).sum := by
  induction ps generalizing p₀ with
  | nil => simp
  | cons p ps ih =>
    have hp : pshape p = sh := hps p (List.mem_cons_self p ps)
    have hshape' : pshape (addParams p₀ p) = sh := by
      rw [pshape_addParams (h₀.trans hp.symm)]; exact h₀
    have hrest : ∀ q ∈ ps, pshape q = sh := fun q hq => hps q (List.mem_cons_of_mem p hq)
    rw [List.foldl_cons, ih (addParams p₀ p) hshape' hrest]
    rw [pget_addParams p₀ p i j
      (by rw [length_of_pshape h₀]; exact hi)
      (by rw [length_of_pshape hp]; exact hi)
      (by rw [tlength_of_pshape h₀]; exact hj)
      (by rw [tlength_of_pshape hp]; exact hj)]
    simp [add_assoc]

lemma addTensor_comm (t₁ t₂ : Tensor) : addTensor t₁ t₂ = addTensor t₂ t₁ :=
  List.zipWith_comm_of_comm _ (fun a b => add_comm a b) t₁ t₂

lemma addTensor_assoc (a b c : Tensor) :
    addTensor (addTensor a b) c = addTensor a (addTensor b c) := by
  induction a generalizing b c with
  | nil => simp [addTensor]
  | cons x xs ih =>
    cases b with
    | nil => simp [addTensor]
    | cons y ys =>
      cases c with
      | nil => simp [addTensor]
      | cons z zs =>
        simp only [addTensor, List.zipWith_cons_cons, List.cons.injEq]
        exact ⟨add_assoc x y z, ih ys zs⟩

lemma addParams_comm (p q : ParameterSet) : addParams p q = addParams q p :=
  List.zipWith_comm_of_comm _ addTensor_comm p q

lemma addParams_assoc (p q r : ParameterSet) :
    addParams (addParams p q) r = addParams p (addParams q r) := by
  induction p generalizing q r with
  | nil => simp [addParams]
  | cons t ts ih =>
    cases q with
    | nil => simp [addParams]
    | cons u us =>
      cases r with
      | nil => simp [addParams]
      | cons v vs =>
        simp only [addParams, List.zipWith_cons_cons, List.cons.injEq]
        exact ⟨addTensor_assoc t u v, ih us vs⟩

lemma addParams_right_comm (z a b : ParameterSet) :
    addParams (addParams z a) b = addParams (addParams z b) a := by
  rw [addParams_assoc, addParams_assoc, addParams_comm a b]

lemma sumParams_perm {l₁ l₂ : List ParameterSet} (h : l₁.Perm l₂) :
    sumParams l₁ = sumParams l₂ := by
  induction h with
  | nil => rfl
  | cons x hperm ih =>
    simp only [sumParams]
    exact hperm.foldl_eq' (fun a _ha b _hb z => addParams_right_comm z a b) x
  | swap x y l =>
    simp only [sumParams, List.foldl_cons]
    rw [addParams_comm]
  | trans h₁ h₂ ih₁ ih₂ => exact ih₁.trans ih₂

/-- Claim C1: for every non-empty list of successful fit results (all of a
common tensor shape), the default `aggregate_fit` is sample-count-weighted
averaging — at each tensor position the aggregated value equals the sum of
(sample count × tensor value) over the results, divided by the sum of the
sample counts; in particular, for two single-tensor results with sample
counts 10 and 20 and values 2 and 5, the aggregate is 4. -/
theorem aggregate_fit_weighted_average :
    (∀ (results : List FitSuccess) (sh : List ℕ), results ≠ [] →
      (∀ r ∈ results, pshape r.parameters = sh) →
      ∀ i j : ℕ, i < sh.length → j < sh.getD i 0 →
      pget (aggregate_fit results) i j
        = (results.map fun r => (r.sampleCount : ℚ) * pget r.parameters i j).sum
            / (results.map fun r => ((r.sampleCount : ℚ))).sum)
    ∧ pget (aggregate_fit [⟨10, [[2]]⟩, ⟨20, [[5]]⟩]) 0 0 = 4 := by
  constructor
  · intro results sh hne hsh i j hi hj
    obtain ⟨r₀, rest, rfl⟩ := List.exists_cons_of_ne_nil hne
    unfold aggregate_fit
    rw [pget_divParams]
    simp only [List.map_cons, sumParams]
    have hsh₀ : pshape (scaleParams (r₀.sampleCount : ℚ) r₀.parameters) = sh := by
      rw [pshape_scaleParams]
      exact hsh r₀ (List.mem_cons_self r₀ rest)
    have hshr : ∀ p ∈ rest.map fun r => scaleParams (r.sampleCount : ℚ) r.parameters,
        pshape p = sh := by
      intro p hp
      obtain ⟨r, hr, rfl⟩ := List.mem_map.mp hp
      rw [pshape_scaleParams]
      exact hsh r (List.mem_cons_of_mem r₀ hr)
    rw [pget_foldl_addParams _ _ sh hsh₀ hshr i j hi hj]
    simp only [List.map_map, Function.comp_def, pget_scaleParams, List.map_cons,
      List.sum_cons, totalWeight]
  · show pget (divParams (totalWeight [⟨10, [[2]]⟩, ⟨20, [[5]]⟩]) _) 0 0 = 4
    norm_num [divParams, totalWeight, sumParams, addParams, addTensor, scaleParams,
      scaleTensor, pget, aggregate_fit]

/-- Witness for C1 at the spec's concrete example: two single-tensor results
with sample counts 10 and 20 and values 2 and 5. -/
theorem aggregate_fit_weighted_average_witness :
    ([(⟨10, [[2]]⟩ : FitSuccess), ⟨20, [[5]]⟩] ≠ [])
    ∧ (∀ r ∈ [(⟨10, [[2]]⟩ : FitSuccess), ⟨20, [[5]]⟩], pshape r.parameters = [1])
    ∧ pget (aggregate_fit [⟨10, [[2]]⟩, ⟨20, [[5]]⟩]) 0 0
        = ([(⟨10, [[2]]⟩ : FitSuccess), ⟨20, [[5]]⟩].map
              fun r => (r.sampleCount : ℚ) * pget r.parameters 0 0).sum
            / ([(⟨10, [[2]]⟩ : FitSuccess), ⟨20, [[5]]⟩].map
              fun r => ((r.sampleCount : ℚ))).sum :=
  ⟨by simp, by simp [pshape],
    aggregate_fit_weighted_average.1 [⟨10, [[2]]⟩, ⟨20, [[5]]⟩] [1]
      (by simp) (by simp [pshape]) 0 0 (by simp) (by simp)⟩

/-- Claim C2: `aggregate_fit` is order-independent — for any permutation of
a fixed list of successful results it yields identical output (the
reduction is commutative and associative). -/
theorem aggregate_fit_order_independent (rs₁ rs₂ : List FitSuccess) (h : rs₁.Perm rs₂) :
    aggregate_fit rs₁ = aggregate_fit rs₂ := by
  unfold aggregate_fit
  rw [sumParams_perm (h.map fun r => scaleParams (r.sampleCount : ℚ) r.parameters)]
  unfold totalWeight
  rw [(h.map fun r => ((r.sampleCount : ℚ))).sum_eq]

/-- Witness for C2: swapping the two concrete results of the spec example
leaves the aggregate unchanged. -/
theorem aggregate_fit_order_independent_witness :
    ([(⟨20, [[5]]⟩ : FitSuccess), ⟨10, [[2]]⟩].Perm [⟨10, [[2]]⟩, ⟨20, [[5]]⟩])
    ∧ aggregate_fit [⟨20, [[5]]⟩, ⟨10, [[2]]⟩] = aggregate_fit [⟨10, [[2]]⟩, ⟨20, [[5]]⟩] :=
  ⟨List.Perm.swap _ _ _,
    aggregate_fit_order_independent _ _ (List.Perm.swap _ _ _)⟩

/-- Modelled from the spec: the error taxonomy of the core. -/
inductive FLError
  | InsufficientParticipants
  | Timeout
  | InstantiationError
  | AggregationError
deriving DecidableEq

/-- Modelled from the spec: the session/strategy configuration options
relevant to fit rounds (`fraction_fit`, `min_fit_participants`,
`min_available_participants`, and the configured minimum number of
successful results below which a round is aborted). -/
structure StrategyConfig where
  fraction_fit : ℚ
  min_fit_participants : ℕ
  min_available_participants : ℕ
  min_fit_successes : ℕ
deriving DecidableEq

/-- Ceiling of a non-negative rational, computed with the integer
arithmetic an implementation would use. -/
def ratCeilNat (q : ℚ) : ℕ :=
  (q.num.toNat + q.den - 1) / q.den

/-- Modelled from the spec: the target sample size computed by
`configure_fit` — `max(min_fit_participants, ceil(fraction_fit *
available_count))`. -/
def targetSampleSize (cfg : StrategyConfig) (availableCount : ℕ) : ℕ :=
  max cfg.min_fit_participants (ratCeilNat (cfg.fraction_fit * availableCount))

/-- Modelled from the spec: sampling picks up to the target number of
distinct available identities (registry snapshot order stands in for the
pluggable selection criterion). -/
def selectFit (cfg : StrategyConfig) (registry : List ℕ) : List ℕ :=
  registry.take (targetSampleSize cfg registry.length)

/-- Modelled from the spec: the `SamplingOutcome` of a fit configuration —
the target sample size together with the selected identities. -/
structure SamplingOutcome where
  targetFitSize : ℕ
  fitParticipants : List ℕ
deriving DecidableEq

/-- Modelled from the spec: `Strategy.configure_fit` — fails the round with
`InsufficientParticipants` when fewer identities are available than
`min_available_participants`, else returns the sampling outcome for the
target sample size. -/
def configure_fit (cfg : StrategyConfig) (roundNum : ℕ) (globalParameters : ParameterSet)
    (registry : List ℕ) : Except FLError SamplingOutcome :=
  if registry.length < cfg.min_available_participants then
    Except.error FLError.InsufficientParticipants
  else
    Except.ok ⟨targetSampleSize cfg registry.length, selectFit cfg registry⟩

lemma ratCeilNat_eq_ceil (q : ℚ) (hq : 0 ≤ q) : ratCeilNat q = Nat.ceil q := by
  have hden : 0 < q.den := q.pos
  have hnum : ((q.num.toNat : ℤ)) = q.num := Int.toNat_of_nonneg (Rat.num_nonneg.mpr hq)
  have hq_eq : ((q.num.toNat : ℚ)) / ((q.den : ℚ)) = q := by
    have hcast : ((q.num.toNat : ℚ)) = ((q.num : ℚ)) := by exact_mod_cast hnum
    rw [hcast, Rat.num_div_den]
  have hbpos : (0 : ℚ) < (q.den : ℚ) := by exact_mod_cast hden
  unfold ratCeilNat
  apply le_antisymm
  · have hle : ((q.num.toNat : ℚ)) ≤ ((Nat.ceil q : ℕ) : ℚ) * (q.den : ℚ) := by
      rw [← div_le_iff₀ hbpos, hq_eq]
      exact Nat.le_ceil q
    have hle' : q.num.toNat ≤ Nat.ceil q * q.den := by exact_mod_cast hle
    have hlt : q.num.toNat + q.den - 1 < (Nat.ceil q + 1) * q.den := by
      have hmul : (Nat.ceil q + 1) * q.den = Nat.ceil q * q.den + q.den := by ring
      omega
    have := (Nat.div_lt_iff_lt_mul hden).mpr hlt
    omega
  · apply Nat.ceil_le.mpr
    have hdm := Nat.div_add_mod (q.num.toNat + q.den - 1) q.den
    have hmod : (q.num.toNat + q.den - 1) % q.den < q.den := Nat.mod_lt _ hden
    have hle : q.num.toNat ≤ (q.num.toNat + q.den - 1) / q.den * q.den := by
      have hmul : (q.num.toNat + q.den - 1) / q.den * q.den
          = q.den * ((q.num.toNat + q.den - 1) / q.den) := by ring
      omega
    have hgoal : ((q.num.toNat : ℚ))
        ≤ (((q.num.toNat + q.den - 1) / q.den : ℕ) : ℚ) * (q.den : ℚ) := by
      exact_mod_cast hle
    calc q = ((q.num.toNat : ℚ)) / (q.den : ℚ) := hq_eq.symm
      _ ≤ (((q.num.toNat + q.den - 1) / q.den : ℕ) : ℚ) := (div_le_iff₀ hbpos).mpr hgoal

/-- Claim C3: for every round, parameters and registry snapshot with at
least `min_available_participants` available, `configure_fit` succeeds and
selects the target sample size `max(min_fit_participants,
ceil(fraction_fit * available_count))`. -/
theorem configure_fit_target_size (cfg : StrategyConfig) (roundNum : ℕ)
    (globalParameters : ParameterSet) (registry : List ℕ)
    (hfrac : 0 ≤ cfg.fraction_fit)
    (h : cfg.min_available_participants ≤ registry.length) :
    configure_fit cfg roundNum globalParameters registry
      = Except.ok ⟨max cfg.min_fit_participants
            (Nat.ceil (cfg.fraction_fit * (registry.length : ℚ))),
          selectFit cfg registry⟩ := by
  unfold configure_fit
  rw [if_neg (by omega)]
  have htarget : targetSampleSize cfg registry.length
      = max cfg.min_fit_participants (Nat.ceil (cfg.fraction_fit * (registry.length : ℚ))) := by
    unfold targetSampleSize
    rw [ratCeilNat_eq_ceil _ (mul_nonneg hfrac (Nat.cast_nonneg _))]
  rw [htarget]

/-- Witness for C3: a 100-identity registry with `min_available = 75`
(as the notebook's session) and fraction 1. -/
theorem configure_fit_target_size_witness :
    ((0 : ℚ) ≤ 1)
    ∧ ((75 : ℕ) ≤ (List.range 100).length)
    ∧ configure_fit ⟨1, 10, 75, 0⟩ 1 [] (List.range 100)
        = Except.ok ⟨max 10 (Nat.ceil ((1 : ℚ) * ((List.range 100).length : ℚ))),
            selectFit ⟨1, 10, 75, 0⟩ (List.range 100)⟩ :=
  ⟨zero_le_one, by simp,
    configure_fit_target_size ⟨1, 10, 75, 0⟩ 1 [] (List.range 100) zero_le_one (by simp)⟩

/-- Modelled from the spec: the outcome of invoking the underlying
participant collaborator — a successful fit result, or a raised fault whose
payload is an opaque code. -/
inductive CollabOutcome
  | ok (res : FitSuccess)
  | fault (code : ℕ)
deriving DecidableEq

/-- Modelled from the spec: the normalized failure reason carried by a
failing TaskResult. -/
inductive FailureReason
  | collaboratorFault (code : ℕ)
  | timeout
  | cancelled
deriving DecidableEq

/-- Modelled from the spec: a TaskResult — success with the fit payload, or
failure carrying the participant identity and a normalized reason. -/
inductive TaskResult
  | success (res : FitSuccess)
  | failure (pid : ℕ) (reason : FailureReason)
deriving DecidableEq

/-- Modelled from the spec: `ParticipantProxy.fit` — a single opaque call
to the collaborator; any fault it raises is caught at this boundary and
converted into a TaskResult failure with the participant identity and the
normalized reason, never propagated. -/
def proxyFit (pid : ℕ) (outcome : CollabOutcome) : TaskResult :=
  match outcome with
  | .ok res => .success res
  | .fault code => .failure pid (.collaboratorFault code)

/-- Resource events of the ParticipantFactory observed during a round. -/
inductive Event
  | acquire (pid : ℕ)
  | release (pid : ℕ)
deriving DecidableEq

/-- Modelled from the spec: how one dispatched task ends — the collaborator
call completes (successfully or with a fault), the round deadline expires
on it, or the session is cancelled while it is in flight. -/
inductive DispatchOutcome
  | completes (c : CollabOutcome)
  | timesOut
  | cancelled
deriving DecidableEq

/-- Modelled from the spec: the dispatch of one task — acquire a proxy from
the ParticipantFactory, run `fit` through it, and release the proxy
regardless of outcome; a timed-out or cancelled task counts as a failure
for that identity. -/
def runTask (pid : ℕ) (d : DispatchOutcome) : List Event × TaskResult :=
  ([Event.acquire pid, Event.release pid],
    match d with
    | .completes c => proxyFit pid c
    | .timesOut => .failure pid .timeout
    | .cancelled => .failure pid .cancelled)

/-- The successful results collected in a round, in arrival order. -/
def successes : List TaskResult → List FitSuccess
  | [] => []
  | .success r :: ts => r :: successes ts
  | .failure _ _ :: ts => successes ts

/-- Modelled from the spec: RoundState — round number, current global
ParameterSet and cumulative per-round metrics history (round number,
success count, failure count). -/
structure RoundState where
  roundNum : ℕ
  globalParameters : ParameterSet
  history : List (ℕ × ℕ × ℕ)
deriving DecidableEq

/-- Outcome of one orchestrated round. -/
inductive RoundOutcome
  | completed
  | aborted (e : FLError)
deriving DecidableEq

/-- The full observable result of one round: the (possibly updated)
RoundState, the resource events emitted, and the round outcome. -/
structure RoundRun where
  state : RoundState
  events : List Event
  outcome : RoundOutcome
deriving DecidableEq

/-- Modelled from the spec: one fit round of the RoundOrchestrator —
configure via the Strategy (aborting, reported, on error), dispatch to
every selected identity (acquire / fit / release), collect the results,
then either abort without mutating RoundState when fewer successes arrived
than configured, or aggregate and advance the round number by exactly 1. -/
def runFitRound (cfg : StrategyConfig) (st : RoundState) (registry : List ℕ)
    (disp : ℕ → DispatchOutcome) : RoundRun :=
  match configure_fit cfg (st.roundNum + 1) st.globalParameters registry with
  | .error e => ⟨st, [], .aborted e⟩
  | .ok o =>
    let events := (o.fitParticipants.map fun pid => (runTask pid (disp pid)).1).flatten
    let results := o.fitParticipants.map fun pid => (runTask pid (disp pid)).2
    let succ := successes results
    if succ.length < cfg.min_fit_successes then
      ⟨st, events, .aborted FLError.InsufficientParticipants⟩
    else
      ⟨⟨st.roundNum + 1, aggregate_fit succ,
          st.history ++ [(st.roundNum + 1, succ.length, results.length - succ.length)]⟩,
        events, .completed⟩

/-- Claim C4: when strictly fewer participants are available than
`min_available_participants`, `configure_fit` fails with
`InsufficientParticipants` and the round dispatches no task at all: no
resource events are emitted and the RoundState is untouched. -/
theorem insufficient_available_no_dispatch (cfg : StrategyConfig) (st : RoundState)
    (registry : List ℕ) (disp : ℕ → DispatchOutcome)
    (h : registry.length < cfg.min_available_participants) :
    configure_fit cfg (st.roundNum + 1) st.globalParameters registry
        = Except.error FLError.InsufficientParticipants
    ∧ runFitRound cfg st registry disp
        = ⟨st, [], RoundOutcome.aborted FLError.InsufficientParticipants⟩ := by
  have hcf : configure_fit cfg (st.roundNum + 1) st.globalParameters registry
      = Except.error FLError.InsufficientParticipants := by
    unfold configure_fit
    rw [if_pos h]
  refine ⟨hcf, ?_⟩
  unfold runFitRound
  rw [hcf]

/-- Witness for C4: 5 registered participants and
`min_available_participants = 10` — configuration fails and nothing is
dispatched. -/
theorem insufficient_available_no_dispatch_witness :
    (([0, 1, 2, 3, 4] : List ℕ).length < 10)
    ∧ configure_fit ⟨1, 10, 10, 0⟩ (0 + 1) [] [0, 1, 2, 3, 4]
        = Except.error FLError.InsufficientParticipants
    ∧ runFitRound ⟨1, 10, 10, 0⟩ ⟨0, [], []⟩ [0, 1, 2, 3, 4] (fun _ => DispatchOutcome.timesOut)
        = ⟨⟨0, [], []⟩, [], RoundOutcome.aborted FLError.InsufficientParticipants⟩ :=
  ⟨by decide,
    (insufficient_available_no_dispatch ⟨1, 10, 10, 0⟩ ⟨0, [], []⟩ [0, 1, 2, 3, 4]
      (fun _ => DispatchOutcome.timesOut) (by decide)).1,
    (insufficient_available_no_dispatch ⟨1, 10, 10, 0⟩ ⟨0, [], []⟩ [0, 1, 2, 3, 4]
      (fun _ => DispatchOutcome.timesOut) (by decide)).2⟩

lemma runTask_fst (pid : ℕ) (d : DispatchOutcome) :
    (runTask pid d).1 = [Event.acquire pid, Event.release pid] := rfl

lemma count_events_balanced (sel : List ℕ) (disp : ℕ → DispatchOutcome) (pid : ℕ) :
    ((sel.map fun p => (runTask p (disp p)).1).flatten.count (Event.acquire pid))
      = ((sel.map fun p => (runTask p (disp p)).1).flatten.count (Event.release pid)) := by
  induction sel with
  | nil => rfl
  | cons p ps ih =>
    simp only [List.map_cons, List.flatten_cons, List.count_append, runTask_fst]
    simp only [runTask_fst] at ih
    rw [ih]
    congr 1
    by_cases hp : p = pid
    · subst hp; simp [List.count_cons]
    · simp [List.count_cons, hp]

/-- Claim C5: in every run of a fit round, each acquire on the
ParticipantFactory is matched by exactly one release on the same identity —
whatever the per-task outcome (success, collaborator fault, timeout or
cancellation) and whatever the configuration. -/
theorem acquire_release_balanced (cfg : StrategyConfig) (st : RoundState)
    (registry : List ℕ) (disp : ℕ → DispatchOutcome) (pid : ℕ) :
    ((runFitRound cfg st registry disp).events.count (Event.acquire pid))
      = ((runFitRound cfg st registry disp).events.count (Event.release pid)) := by
  unfold runFitRound
  cases hcf : configure_fit cfg (st.roundNum + 1) st.globalParameters registry with
  | error e => rfl
  | ok o =>
    dsimp only
    split
    · exact count_events_balanced o.fitParticipants disp pid
    · exact count_events_balanced o.fitParticipants disp pid

/-- Modelled from the spec: the state of the ParticipantFactory's resource
pool — the number of acquisitions not yet released. -/
structure PoolState where
  inFlight : ℕ
deriving DecidableEq

/-- Modelled from the spec: the pool's transitions under a budget, as a
counting semaphore — an acquire proceeds only while a unit is free (a
request beyond the budget suspends, so no transition exists for it), and a
release returns a unit. -/
inductive PoolStep (budget : ℕ) : PoolState → PoolState → Prop
  | acquire (s : PoolState) (h : s.inFlight < budget) : PoolStep budget s ⟨s.inFlight + 1⟩
  | release (s : PoolState) (h : 0 < s.inFlight) : PoolStep budget s ⟨s.inFlight - 1⟩

/-- Pool states reachable from the idle pool. -/
inductive PoolReachable (budget : ℕ) : PoolState → Prop
  | idle : PoolReachable budget ⟨0⟩
  | step {s t : PoolState} (hs : PoolReachable budget s) (hstep : PoolStep budget s t) :
      PoolReachable budget t

/-- Claim C6: in every reachable state of the resource pool, the count of
un-released acquisitions never exceeds the configured budget — excess
acquire requests have no enabled transition and suspend instead. -/
theorem pool_never_exceeds_budget (budget : ℕ) (s : PoolState)
    (h : PoolReachable budget s) : s.inFlight ≤ budget := by
  induction h with
  | idle => exact Nat.zero_le budget
  | step hs hstep ih =>
    cases hstep with
    | acquire hlt => exact hlt
    | release hpos => exact le_trans (Nat.sub_le _ _) ih

/-- Witness for C6: with budget 2 the state holding one un-released
acquisition is reachable and within budget. -/
theorem pool_never_exceeds_budget_witness :
    PoolReachable 2 ⟨1⟩ ∧ (⟨1⟩ : PoolState).inFlight ≤ 2 :=
  ⟨PoolReachable.step PoolReachable.idle (PoolStep.acquire ⟨0⟩ (by decide)),
    pool_never_exceeds_budget 2 ⟨1⟩
      (PoolReachable.step PoolReachable.idle (PoolStep.acquire ⟨0⟩ (by decide)))⟩

/-- Claim C7: the round number advances by exactly 1 when a round
completes, and an aborted (failed) round leaves RoundState exactly as
established by the preceding round — a failed round never reverts or
mutates it. -/
theorem round_monotonic (cfg : StrategyConfig) (st : RoundState)
    (registry : List ℕ) (disp : ℕ → DispatchOutcome) :
    ((runFitRound cfg st registry disp).outcome = RoundOutcome.completed →
      (runFitRound cfg st registry disp).state.roundNum = st.roundNum + 1)
    ∧ (∀ e : FLError, (runFitRound cfg st registry disp).outcome = RoundOutcome.aborted e →
      (runFitRound cfg st registry disp).state = st) := by
  unfold runFitRound
  cases hcf : configure_fit cfg (st.roundNum + 1) st.globalParameters registry with
  | error e =>
    exact ⟨fun hout => RoundOutcome.noConfusion hout, fun e' hout => rfl⟩
  | ok o =>
    dsimp only
    split
    · exact ⟨fun hout => RoundOutcome.noConfusion hout, fun e' hout => rfl⟩
    · exact ⟨fun hout => rfl, fun e' hout => RoundOutcome.noConfusion hout⟩

/-- Witness for C7: a concrete one-participant round that completes and
advances the round number from 0 to 1. -/
theorem round_monotonic_witness :
    ((runFitRound ⟨0, 1, 1, 0⟩ ⟨0, [], []⟩ [7]
        (fun _ => DispatchOutcome.completes (CollabOutcome.ok ⟨1, [[1]]⟩))).outcome
      = RoundOutcome.completed)
    ∧ ((runFitRound ⟨0, 1, 1, 0⟩ ⟨0, [], []⟩ [7]
        (fun _ => DispatchOutcome.completes (CollabOutcome.ok ⟨1, [[1]]⟩))).state.roundNum
      = 0 + 1) :=
  ⟨by simp [runFitRound, configure_fit, Nat.not_lt_zero],
    (round_monotonic ⟨0, 1, 1, 0⟩ ⟨0, [], []⟩ [7]
        (fun _ => DispatchOutcome.completes (CollabOutcome.ok ⟨1, [[1]]⟩))).1
      (by simp [runFitRound, configure_fit, Nat.not_lt_zero])⟩

lemma ratCeilNat_zero : ratCeilNat 0 = 0 := by
  norm_num [ratCeilNat]

lemma selectFit_eval :
    selectFit ⟨0, 2, 2, 1⟩ [5, 6] = [5, 6] := by
  simp [selectFit, targetSampleSize, ratCeilNat_zero]

/-- Claim C8: a fault raised by the underlying collaborator during fit is
caught at the proxy boundary and returned as a TaskResult failure carrying
the participant identity and the normalized reason, never propagated; and
per-task failures never abort the round by themselves — whenever the
configured number of successes arrives, the round completes regardless of
how many tasks failed. -/
theorem task_failures_recovered (cfg : StrategyConfig) (st : RoundState)
    (registry : List ℕ) (disp : ℕ → DispatchOutcome) :
    (∀ pid code, proxyFit pid (CollabOutcome.fault code)
        = TaskResult.failure pid (FailureReason.collaboratorFault code))
    ∧ (cfg.min_available_participants ≤ registry.length →
       cfg.min_fit_successes ≤ (successes ((selectFit cfg registry).map
           fun pid => (runTask pid (disp pid)).2)).length →
       (runFitRound cfg st registry disp).outcome = RoundOutcome.completed) := by
  constructor
  · intro pid code; rfl
  · intro havail hsucc
    unfold runFitRound
    have hcf : configure_fit cfg (st.roundNum + 1) st.globalParameters registry
        = Except.ok ⟨targetSampleSize cfg registry.length, selectFit cfg registry⟩ := by
      unfold configure_fit
      rw [if_neg (by omega)]
    rw [hcf]
    dsimp only
    rw [if_neg (Nat.not_lt.mpr hsucc)]

/-- Witness for C8: a two-participant round where one collaborator raises a
fault; the round still completes on the remaining success. -/
theorem task_failures_recovered_witness :
    ((2 : ℕ) ≤ ([5, 6] : List ℕ).length)
    ∧ (1 ≤ (successes ((selectFit ⟨0, 2, 2, 1⟩ [5, 6]).map
        fun pid => (runTask pid ((fun p => if p = 5
            then DispatchOutcome.completes (CollabOutcome.fault 3)
            else DispatchOutcome.completes (CollabOutcome.ok ⟨4, [[2]]⟩)) pid)).2)).length)
    ∧ (runFitRound ⟨0, 2, 2, 1⟩ ⟨0, [], []⟩ [5, 6]
        (fun p => if p = 5
            then DispatchOutcome.completes (CollabOutcome.fault 3)
            else DispatchOutcome.completes (CollabOutcome.ok ⟨4, [[2]]⟩))).outcome
      = RoundOutcome.completed :=
  ⟨by decide,
    by rw [selectFit_eval]; decide,
    (task_failures_recovered ⟨0, 2, 2, 1⟩ ⟨0, [], []⟩ [5, 6] _).2
      (by decide) (by rw [selectFit_eval]; decide)⟩

/-- A Keras model as the notebook uses it: the current weights plus opaque
training and evaluation collaborators (`model.fit` produces updated
weights, `model.evaluate` produces loss and accuracy for given data). -/
structure KerasModel where
  weights : ParameterSet
  fitFn : ParameterSet → List ℚ → List ℚ → ParameterSet
  evalFn : ParameterSet → List ℚ → List ℚ → ℚ × ℚ

/-- `model.set_weights(parameters)`. -/
def KerasModel.set_weights (m : KerasModel) (w : ParameterSet) : KerasModel :=
  { m with weights := w }

/-- `model.get_weights()`. -/
def KerasModel.get_weights (m : KerasModel) : ParameterSet :=
  m.weights

/-- The `FlowerClient` object of sim.ipynb: its five fields. -/
structure FlowerClient where
  model : KerasModel
  x_train : List ℚ
  y_train : List ℚ
  x_val : List ℚ
  y_val : List ℚ

/-- The notebook constructor `FlowerClient.__init__(self, model, x_train,
y_train, x_val, y_val)`, embedded line by line:
`self.x_train, self.y_train = x_train, y_train` and
`self.x_val, self.y_val = x_train, y_train`. -/
def FlowerClient.init (model : KerasModel) (x_train y_train x_val y_val : List ℚ) :
    FlowerClient :=
  { model := model
    x_train := x_train
    y_train := y_train
    x_val := x_train
    y_val := y_train }

/-- `FlowerClient.fit` from the notebook: set weights, train on the
training fields, return the updated weights and `len(self.x_train)`. -/
def FlowerClient.fit (c : FlowerClient) (parameters : ParameterSet) : ParameterSet × ℕ :=
  let m := c.model.set_weights parameters
  let trained := { m with weights := m.fitFn m.weights c.x_train c.y_train }
  (trained.get_weights, c.x_train.length)

/-- `FlowerClient.evaluate` from the notebook: set weights, evaluate on the
validation fields, return `(loss, len(self.x_val), accuracy)`. -/
def FlowerClient.evaluate (c : FlowerClient) (parameters : ParameterSet) : ℚ × ℕ × ℚ :=
  let m := c.model.set_weights parameters
  let r := m.evalFn m.weights c.x_val c.y_val
  (r.1, c.x_val.length, r.2)

/-- Claim C9: the notebook constructor assigns the training arrays to both
the training and the validation fields, so `evaluate` computes loss,
accuracy and sample count over the training data passed at construction,
and the `x_val`/`y_val` constructor arguments are never used. -/
theorem flowerClient_evaluates_on_train (model : KerasModel)
    (x_train y_train x_val y_val : List ℚ) :
    ((FlowerClient.init model x_train y_train x_val y_val).x_val = x_train)
    ∧ ((FlowerClient.init model x_train y_train x_val y_val).y_val = y_train)
    ∧ (∀ parameters,
        (FlowerClient.init model x_train y_train x_val y_val).evaluate parameters
          = ((model.evalFn parameters x_train y_train).1, x_train.length,
              (model.evalFn parameters x_train y_train).2))
    ∧ (∀ xv yv, FlowerClient.init model x_train y_train xv yv
        = FlowerClient.init model x_train y_train x_val y_val) :=
  ⟨rfl, rfl, fun _ => rfl, fun _ _ => rfl⟩

/-- `NUM_CLIENTS` from the notebook. -/
def NUM_CLIENTS : ℕ := 100

/-- Python slice `a[i:j]` (non-negative indices). -/
def pySlice (l : List ℚ) (i j : ℕ) : List ℚ :=
  (l.take j).drop i

/-- The data-loading part of `client_fn(cid)` from the notebook: partition
the dataset into `NUM_CLIENTS` parts, normalize the x partition by 255,
then split off the validation share.  As in the notebook, `split_idx` is
computed from `len(x_train)` — the full dataset, not the partition — and
`x_val_cid`/`y_val_cid` are sliced from the already truncated
`x_train_cid`/`y_train_cid`.  `math.floor(len(x_train) * 0.9)` is embedded
as `len * 9 / 10`, exact at the 60000-example dataset the notebook loads.
Returns `((x_train_cid, y_train_cid), (x_val_cid, y_val_cid))`. -/
def client_fn_data (x_train y_train : List ℚ) (cid : ℕ) :
    (List ℚ × List ℚ) × (List ℚ × List ℚ) :=
  let partition_size := x_train.length / NUM_CLIENTS
  let idx_from := cid * partition_size
  let idx_to := (cid + 1) * partition_size
  let x_train_cid := (pySlice x_train idx_from idx_to).map fun v => v / 255
  let y_train_cid := pySlice y_train idx_from idx_to
  let split_idx := x_train.length * 9 / 10
  let x_train_cid2 := x_train_cid.take split_idx
  let y_train_cid2 := y_train_cid.take split_idx
  let x_val_cid := x_train_cid2.drop split_idx
  let y_val_cid := y_train_cid2.drop split_idx
  ((x_train_cid2, y_train_cid2), (x_val_cid, y_val_cid))

/-- `client_fn(cid)` from the notebook: build the (opaque) model, load the
partition, construct the client. -/
def client_fn (model : KerasModel) (x_train y_train : List ℚ) (cid : ℕ) : FlowerClient :=
  let d := client_fn_data x_train y_train cid
  FlowerClient.init model d.1.1 d.1.2 d.2.1 d.2.2

/-- Claim C10: for every client id below `NUM_CLIENTS`, on the 60000-example
dataset the notebook's `client_fn` produces empty validation arrays — the
split index (54000) is computed from the full dataset instead of the
600-example partition and the validation slice is taken from the already
truncated partition — while `x_train_cid` retains the entire partition. -/
theorem client_fn_empty_validation (x_train y_train : List ℚ) (cid : ℕ)
    (hx : x_train.length = 60000) (hcid : cid < 100) :
    ((client_fn_data x_train y_train cid).2 = ([], []))
    ∧ ((client_fn_data x_train y_train cid).1.1
        = (pySlice x_train (cid * 600) ((cid + 1) * 600)).map fun v => v / 255)
    ∧ ((client_fn_data x_train y_train cid).1.1.length = 600) := by
  refine ⟨?_, ?_, ?_⟩
  · simp only [client_fn_data, NUM_CLIENTS, hx]
    norm_num
  · simp only [client_fn_data, NUM_CLIENTS, hx]
    norm_num
    simp only [pySlice, List.length_drop, List.length_take, hx]
    omega
  · simp only [client_fn_data, NUM_CLIENTS, hx]
    norm_num
    simp only [pySlice, List.length_drop, List.length_take, hx]
    omega

/-- Witness for C10 at client id 0 on a concrete 60000-example dataset. -/
theorem client_fn_empty_validation_witness :
    ((List.replicate 60000 (0 : ℚ)).length = 60000)
    ∧ ((0 : ℕ) < 100)
    ∧ ((client_fn_data (List.replicate 60000 (0 : ℚ)) [] 0).2 = ([], []))
    ∧ ((client_fn_data (List.replicate 60000 (0 : ℚ)) [] 0).1.1
        = (pySlice (List.replicate 60000 (0 : ℚ)) (0 * 600) ((0 + 1) * 600)).map
            fun v => v / 255)
    ∧ ((client_fn_data (List.replicate 60000 (0 : ℚ)) [] 0).1.1.length = 600) :=
  ⟨List.length_replicate 60000 0, by decide,
    (client_fn_empty_validation (List.replicate 60000 (0 : ℚ)) [] 0
      (List.length_replicate 60000 0) (by decide)).1,
    (client_fn_empty_validation (List.replicate 60000 (0 : ℚ)) [] 0
      (List.length_replicate 60000 0) (by decide)).2.1,
    (client_fn_empty_validation (List.replicate 60000 (0 : ℚ)) [] 0
      (List.length_replicate 60000 0) (by decide)).2.2⟩

end Flower
